import Mathlib

/-!
Shallow embedding of the tool-mediated answer-generation core of the
ragchatbot codebase: the course-search tool with its cumulative citation
numbering and the tool registry (`backend/search_tools.py`), the generation
loop (`backend/ai_generator.py`), and the caller-side citation filtering
exercised by `tests/test_rag_system.py`.

Python mutable object state becomes explicit state passing, machine-external
services (the vector store, the inference endpoint) become oracle functions,
exceptions become `Except`/`Option`, and Python integers become `Nat`/`Int`.
-/

namespace RagChatbot

/-- Keyword arguments of a tool invocation (`**kwargs`): the union of the
parameters accepted by the two concrete tools of `search_tools.py`. -/
structure ToolInput where
  query : String
  course_name : Option String
  lesson_number : Option Int
  course_title : String
deriving DecidableEq

/-- An evidence item accumulated by `CourseSearchTool` (an `all_sources`
entry): `citation_num`, `title`, `url`. -/
structure Source where
  citationNum : Nat
  title : String
  url : Option String
deriving DecidableEq

/-- The mutable state of a `CourseSearchTool`: the `all_sources` list and the
`_source_counter` used for cumulative citation numbering. -/
structure SearchState where
  allSources : List Source
  sourceCounter : Nat
deriving DecidableEq

/-- A metadata mapping attached to one search hit.  `course_title` and
`lesson_number` may be absent, which Python reads with `meta.get`. -/
structure Meta where
  course_title : Option String
  lesson_number : Option Int
deriving DecidableEq

/-- The value returned by `VectorStore.search`. -/
structure SearchResults where
  documents : List String
  metadata : List Meta
  error : Option String
deriving DecidableEq

/-- Modelled from the spec: `SearchResults.is_empty` lives in the external
`vector_store.py`, which is not among the sources; the spec describes it as
"`is_empty()` derivable from empty documents". -/
def SearchResults.is_empty (r : SearchResults) : Bool := r.documents.isEmpty

/-- Python truthiness of an optional string (`if results.error:`): `None` and
the empty string are falsy. -/
def strTruthy : Option String → Bool
  | Option.none => false
  | some s => !s.isEmpty

/-- The external vector store, reduced to the two functions the search tool
consumes: `search` and `get_lesson_link`. -/
structure VectorStore where
  search : String → Option String → Option Int → SearchResults
  get_lesson_link : String → Int → Option String

namespace CourseSearchTool

/-- The body of the `for doc, meta in zip(...)` loop of
`CourseSearchTool._format_results`: increment the counter before use, derive
the source title (appending `" - Lesson {n}"` when a lesson number is
present), resolve the lesson link, append the evidence item, and emit the
block header `"[{citation_num}] {source_title}"`. -/
def formatResultsAux (store : VectorStore) :
    List (String × Meta) → SearchState → List String × SearchState
  | [], st => ([], st)
  | (doc, meta) :: rest, st =>
    let citation_num := st.sourceCounter + 1
    let course_title := meta.course_title.getD "unknown"
    let source_title :=
      match meta.lesson_number with
      | some n => course_title ++ " - Lesson " ++ toString n
      | Option.none => course_title
    let lesson_link :=
      match meta.lesson_number with
      | some n => store.get_lesson_link course_title n
      | Option.none => Option.none
    let st' : SearchState :=
      ⟨st.allSources ++ [⟨citation_num, source_title, lesson_link⟩], citation_num⟩
    let header := "[" ++ toString citation_num ++ "] " ++ source_title
    let res := formatResultsAux store rest st'
    ((header ++ "\n" ++ doc) :: res.1, res.2)

/-- `CourseSearchTool._format_results`: format each (document, metadata) pair
and join the blocks with a blank line. -/
def formatResults (store : VectorStore) (st : SearchState) (results : SearchResults) :
    String × SearchState :=
  let res := formatResultsAux store (results.documents.zip results.metadata) st
  (String.intercalate "\n\n" res.1, res.2)

/-- `CourseSearchTool.execute`.  Python truthiness governs both the error
check (`if results.error:`) and the filter suffixes (`if course_name:`,
`if lesson_number:`), so an empty course name or a zero lesson number
contributes no suffix. -/
def execute (store : VectorStore) (st : SearchState) (query : String)
    (course_name : Option String) (lesson_number : Option Int) : String × SearchState :=
  let results := store.search query course_name lesson_number
  if strTruthy results.error then (results.error.getD "", st)
  else if results.is_empty then
    let filter_info :=
      (match course_name with
       | some c => if c = "" then "" else " in course '" ++ c ++ "'"
       | Option.none => "") ++
      (match lesson_number with
       | some n => if n = 0 then "" else " in lesson " ++ toString n
       | Option.none => "")
    ("No relevant content found" ++ filter_info ++ ".", st)
  else
    formatResults store st results

/-- `CourseSearchTool.reset_sources`: clear the accumulated sources and the
citation counter. -/
def reset_sources (_st : SearchState) : SearchState := ⟨[], 0⟩

end CourseSearchTool

/-- Run a sequence of `CourseSearchTool.execute` invocations (one logical
query may contain several searches), threading the tool state. -/
def runSearches (store : VectorStore) :
    List (String × Option String × Option Int) → SearchState → SearchState
  | [], st => st
  | (q, cn, ln) :: rest, st =>
    runSearches store rest (CourseSearchTool.execute store st q cn ln).2

/-- An Anthropic tool definition, as far as the registry inspects it:
`tool_def.get("name")` may be absent, the rest is opaque payload. -/
structure ToolDef where
  name : Option String
  description : String
deriving DecidableEq

/-- The evidence-tracking capabilities a registered tool may expose, mirroring
the `hasattr` checks of `ToolManager.reset_sources`: both `reset_sources` and
`all_sources` (the course-search tool), only an `all_sources` list, or
neither (the outline tool). -/
inductive EvidenceCap
  | tracker (st : SearchState)
  | listOnly (sources : List Source)
  | absent
deriving DecidableEq

/-- A registered tool: its published definition, its `execute` behaviour
(threading its evidence state), and its current evidence state. -/
structure Tool where
  definition : ToolDef
  invoke : ToolInput → EvidenceCap → String × EvidenceCap
  evidence : EvidenceCap

/-- Insertion into a Python `dict` keyed by strings: replace in place when the
key exists (keeping its position), append otherwise. -/
def dictInsert : List (String × Tool) → String → Tool → List (String × Tool)
  | [], k, v => [(k, v)]
  | (k', v') :: rest, k, v =>
    if k' == k then (k, v) :: rest else (k', v') :: dictInsert rest k v

/-- `ToolManager`: an insertion-ordered mapping from tool name to tool. -/
structure ToolManager where
  tools : List (String × Tool)

/-- `ToolManager.register_tool`: store under the definition's name; raising
`ValueError` for a missing or empty name is modelled with `Except.error`. -/
def ToolManager.register_tool (tm : ToolManager) (tool : Tool) : Except String ToolManager :=
  match tool.definition.name with
  | Option.none => Except.error "Tool must have a 'name' in its definition"
  | some n =>
    if n = "" then Except.error "Tool must have a 'name' in its definition"
    else Except.ok ⟨dictInsert tm.tools n tool⟩

/-- `ToolManager.get_tool_definitions`: all definitions in storage order. -/
def ToolManager.get_tool_definitions (tm : ToolManager) : List ToolDef :=
  tm.tools.map (fun p => p.2.definition)

/-- `ToolManager.execute_tool`: an unregistered name yields the literal
string `"Tool '{name}' not found"`, never an exception; otherwise the call is
forwarded to the tool's `execute`, whose state update is written back. -/
def ToolManager.execute_tool (tm : ToolManager) (tool_name : String) (args : ToolInput) :
    String × ToolManager :=
  match tm.tools.lookup tool_name with
  | Option.none => ("Tool '" ++ tool_name ++ "' not found", tm)
  | some t =>
    let (s, ev') := t.invoke args t.evidence
    (s, ⟨dictInsert tm.tools tool_name { t with evidence := ev' }⟩)

/-- The per-tool effect of `ToolManager.reset_sources`: a tool with a
`reset_sources` method clears list and counter; a tool exposing only
`all_sources` has the list cleared; other tools are untouched. -/
def resetEvidence : EvidenceCap → EvidenceCap
  | .tracker _ => .tracker ⟨[], 0⟩
  | .listOnly _ => .listOnly []
  | .absent => .absent

/-- `ToolManager.reset_sources` (the spec's `clear_evidence`). -/
def ToolManager.reset_sources (tm : ToolManager) : ToolManager :=
  ⟨tm.tools.map (fun p => (p.1, { p.2 with evidence := resetEvidence p.2.evidence }))⟩

/-- The evidence list a tool contributes to `ToolManager.get_all_sources`. -/
def evidenceSources : EvidenceCap → List Source
  | .tracker st => st.allSources
  | .listOnly l => l
  | .absent => []

/-- `ToolManager.get_all_sources` (the spec's `collect_evidence`). -/
def ToolManager.get_all_sources (tm : ToolManager) : List Source :=
  (tm.tools.map (fun p => evidenceSources p.2.evidence)).flatten

/-- A block of an endpoint response's `content`: a text block or a
`tool_use` block (id, name, input). -/
inductive ContentBlock
  | text (text : String)
  | toolUse (id : String) (name : String) (input : ToolInput)
deriving DecidableEq

/-- `hasattr(block, 'text')`: only text blocks carry a `text` attribute. -/
def isTextBlock : ContentBlock → Bool
  | .text _ => true
  | .toolUse _ _ _ => false

/-- A response from the inference endpoint: `stop_reason` and `content`. -/
structure EndpointResponse where
  stop_reason : String
  content : List ContentBlock
deriving DecidableEq

/-- One `tool_result` entry sent back to the endpoint. -/
structure ToolResult where
  tool_use_id : String
  content : String
deriving DecidableEq

/-- The content of one chain message: plain text, the assistant's content
blocks, or a bundle of tool results. -/
inductive MessageContent
  | text (s : String)
  | blocks (bs : List ContentBlock)
  | toolResults (rs : List ToolResult)
deriving DecidableEq

/-- One message of the chain owned by `generate_response`. -/
structure Message where
  role : String
  content : MessageContent
deriving DecidableEq

/-- The parameters of one `client.messages.create` call that the claims
observe: the message chain, the system content, and the `tools` parameter
(`Option.none` when the parameter is absent from the call). -/
structure CallParams where
  messages : List Message
  system : String
  tools : Option (List ToolDef)
deriving DecidableEq

/-- The inference endpoint, as a deterministic oracle over the index of the
call within one `generate_response` run and the parameters sent. -/
def Endpoint : Type := Nat → CallParams → EndpointResponse

/-- Instrumentation: one record per endpoint call — whether tool definitions
were offered, the tool-call count at the moment of the call, and whether the
call was made by the main loop (`true`) rather than by the helpers
`_ensure_citations_in_response` / `_force_final_response` (`false`). -/
structure CallRec where
  toolsOffered : Bool
  toolCallCount : Nat
  inLoop : Bool
deriving DecidableEq

/-- `AIGenerator.SYSTEM_PROMPT`. -/
def SYSTEM_PROMPT : String :=
  "You are an AI assistant specialized in course materials and educational content with access to tools for course information.

Available Tools:
1. **search_course_content**: Search within course content for specific topics, concepts, or details
2. **get_course_outline**: Get course structure including title, instructor, link, and complete lesson list

Tool Selection Strategy:
- Use **get_course_outline** for: course syllabus, lesson lists, what a course covers, course structure
- Use **search_course_content** for: specific content questions, concepts, explanations within lessons
- **Sequential Tool Usage**: You may make multiple tool calls when needed for complex queries
  - Use SINGLE call for: simple lookups, specific content questions
  - Use MULTIPLE calls for: comparisons across courses, gathering comprehensive information
  - Each call should have a distinct purpose (avoid redundant searches)

When to Stop Searching:
- You have sufficient information to answer completely
- Further searches would be redundant
- You've gathered enough sources on the topic

Citation Instructions (for search_course_content only):
- Search results are numbered [1], [2], [3], etc. and accumulate across searches
- Cite sources by including the number in brackets, e.g., \"The model uses attention mechanisms [1].\"
- Only cite sources you actually use
- Course outlines do not require citations

Response Protocol:
- **General knowledge questions**: Answer without tools
- **Course structure/syllabus questions**: Use get_course_outline
- **Course content questions**: Use search_course_content
- **Comparison questions**: Search each course separately, then synthesize
- **No meta-commentary**: Provide direct answers only

For Course Outlines:
- Present the course title, instructor, and link clearly
- List lessons with their numbers, titles, and links
- Format as a readable list

All responses must be:
1. **Brief and focused** - Get to the point quickly
2. **Educational** - Maintain instructional value
3. **Clear** - Use accessible language
"

/-- `AIGenerator._build_system_content`: Python truthiness makes an empty
history string behave like no history. -/
def buildSystemContent : Option String → String
  | some h =>
    if h = "" then SYSTEM_PROMPT
    else SYSTEM_PROMPT ++ "\n\nPrevious conversation:\n" ++ h
  | Option.none => SYSTEM_PROMPT

/-- `AIGenerator._extract_text_response`: the text of the first block that
carries a `text` attribute, the empty string when there is none. -/
def extractTextResponse : List ContentBlock → String
  | [] => ""
  | .text t :: _ => t
  | .toolUse _ _ _ :: rest => extractTextResponse rest

/-- State machine for `re.search(r'\x5c[\x5cd+\x5c]', text)`: the second
argument is `Option.none` outside a candidate marker, and `some seen` after an
unclosed `[`, where `seen` records whether at least one digit followed it. -/
def hasCitationAux : List Char → Option Bool → Bool
  | [], _ => false
  | c :: rest, some seen =>
    if c.isDigit then hasCitationAux rest (some true)
    else if c = ']' then (if seen then true else hasCitationAux rest Option.none)
    else if c = '[' then hasCitationAux rest (some false)
    else hasCitationAux rest Option.none
  | c :: rest, Option.none =>
    if c = '[' then hasCitationAux rest (some false)
    else hasCitationAux rest Option.none

/-- Whether a text contains a citation pattern: digits enclosed in square
brackets, e.g. `[1]`. -/
def hasCitation (s : String) : Bool := hasCitationAux s.data Option.none

/-- The reminder appended by `_ensure_citations_in_response`. -/
def citationReminder : String :=
  "Please revise your response to include citations using bracket notation [1], [2], etc. to reference the search results. Each fact from the course materials should cite its source."

/-- The instruction appended by `_force_final_response`. -/
def finalInstruction : String :=
  "Based on the search results above, please provide your final response. Remember to cite your sources using the bracket notation [1], [2], etc."

/-- Dispatch every `tool_use` block of a response through the registry, in
the order the blocks appear, threading the registry state and collecting one
`tool_result` per call. -/
def runToolCalls : ToolManager → List ContentBlock → List ToolResult × ToolManager
  | tm, [] => ([], tm)
  | tm, .toolUse i n input :: rest =>
    let one := ToolManager.execute_tool tm n input
    let res := runToolCalls one.2 rest
    (⟨i, one.1⟩ :: res.1, res.2)
  | tm, .text _ :: rest => runToolCalls tm rest

/-- `AIGenerator._execute_tools_and_update_messages`: append the assistant's
tool-use message, execute all tool calls, and append a single user message
bundling the results (only when there is at least one result). -/
def executeToolsAndUpdateMessages (response : EndpointResponse) (messages : List Message)
    (tm : ToolManager) : List Message × ToolManager :=
  let updated := messages ++ [⟨"assistant", .blocks response.content⟩]
  let res := runToolCalls tm response.content
  if res.1.isEmpty then (updated, res.2)
  else (updated ++ [⟨"user", .toolResults res.1⟩], res.2)

/-- `AIGenerator._force_final_response`: one endpoint call without tools,
after appending the final-answer instruction.  Also returns the call's
instrumentation record. -/
def forceFinalResponse (ep : Endpoint) (callIdx : Nat) (messages : List Message)
    (system : String) (count : Nat) : String × CallRec :=
  let finalMessages := messages ++ [⟨"user", .text finalInstruction⟩]
  let resp := ep callIdx ⟨finalMessages, system, Option.none⟩
  (extractTextResponse resp.content, ⟨false, count, false⟩)

/-- `AIGenerator._ensure_citations_in_response`: return the text as-is when
it contains a citation pattern; otherwise make exactly one endpoint call
without tools, appending the uncited response and the citation reminder, and
return that call's text unconditionally.  The second component lists the
instrumentation records of the extra calls made (none or one). -/
def ensureCitationsInResponse (ep : Endpoint) (callIdx : Nat) (resp : EndpointResponse)
    (messages : List Message) (system : String) (count : Nat) : String × List CallRec :=
  let text := extractTextResponse resp.content
  if hasCitation text then (text, [])
  else
    let finalMessages :=
      messages ++ [⟨"assistant", .text text⟩, ⟨"user", .text citationReminder⟩]
    let revised := ep callIdx ⟨finalMessages, system, Option.none⟩
    (extractTextResponse revised.content, [⟨false, count, false⟩])

/-- The `while True` loop of `AIGenerator.generate_response`.  `fuel` is a
structural bound on the remaining tool rounds: the loop recurses only while
`count < cfg`, so starting with `fuel = cfg` the `fuel = 0` arm of the
recursion branch is unreachable.  The result is `Option.none` exactly when
the Python code would raise (a `tool_use` round with no tool manager, which
cannot happen through the real API, or exhausted fuel); otherwise it is the
returned text together with one instrumentation record per endpoint call. -/
def generateLoopAux (cfg : Nat) (ep : Endpoint) (toolsOpt : Option (List ToolDef))
    (system : String) :
    Nat → List Message → Option ToolManager → Nat → Nat → Option (String × List CallRec)
  | fuel, msgs, tmOpt, count, callIdx =>
    let canUse := toolsOpt.isSome && tmOpt.isSome && decide (count < cfg)
    let resp := ep callIdx ⟨msgs, system, if canUse then toolsOpt else Option.none⟩
    let rec1 : CallRec := ⟨canUse, count, true⟩
    if resp.stop_reason ≠ "tool_use" then
      if 0 < count then
        let res := ensureCitationsInResponse ep (callIdx + 1) resp msgs system count
        some (res.1, rec1 :: res.2)
      else some (extractTextResponse resp.content, [rec1])
    else if cfg ≤ count then
      let res := forceFinalResponse ep (callIdx + 1) msgs system count
      some (res.1, [rec1, res.2])
    else
      match tmOpt with
      | Option.none => Option.none
      | some tm =>
        match fuel with
        | 0 => Option.none
        | fuel' + 1 =>
          let next := executeToolsAndUpdateMessages resp msgs tm
          (generateLoopAux cfg ep toolsOpt system fuel' next.1 (some next.2) (count + 1)
              (callIdx + 1)).map
            (fun r => (r.1, rec1 :: r.2))

/-- `AIGenerator.generate_response`: build the system content, start the
chain with the user's query, and run the loop with a zero tool-call count.
`cfg` is `config.MAX_SEQUENTIAL_TOOL_CALLS`. -/
def generateResponse (cfg : Nat) (ep : Endpoint) (query : String) (history : Option String)
    (toolsOpt : Option (List ToolDef)) (tmOpt : Option ToolManager) :
    Option (String × List CallRec) :=
  generateLoopAux cfg ep toolsOpt (buildSystemContent history) cfg
    [⟨"user", .text query⟩] tmOpt 0 0

/-- Value of a list of decimal digit characters. -/
def digitsToNat (ds : List Char) : Nat :=
  ds.foldl (fun acc c => acc * 10 + (c.toNat - 48)) 0

/-- A token of a response text: a literal character or a citation marker
`[n]` (digits enclosed in square brackets), with its original digit
characters kept. -/
inductive Tok
  | ch (c : Char)
  | marker (n : Nat) (ds : List Char)
deriving DecidableEq

/-- Modelled from the spec: scan a text left-to-right, without overlap, into
literal characters and `[n]` markers.  The second argument holds the digits
collected after an unclosed `[`, `Option.none` when outside a candidate
marker; an aborted candidate is flushed back as literal characters. -/
def tokenize : List Char → Option (List Char) → List Tok
  | [], Option.none => []
  | [], some pend => ('[' :: pend).map Tok.ch
  | c :: rest, Option.none =>
    if c = '[' then tokenize rest (some [])
    else .ch c :: tokenize rest Option.none
  | c :: rest, some pend =>
    if c.isDigit then tokenize rest (some (pend ++ [c]))
    else if c = ']' then
      if pend.isEmpty then .ch '[' :: .ch ']' :: tokenize rest Option.none
      else .marker (digitsToNat pend) pend :: tokenize rest Option.none
    else if c = '[' then (('[' :: pend).map Tok.ch) ++ tokenize rest (some [])
    else (('[' :: pend).map Tok.ch) ++ (.ch c :: tokenize rest Option.none)

/-- The marker value of a token, if any. -/
def tokMarker : Tok → Option Nat
  | .marker n _ => some n
  | .ch _ => Option.none

/-- All citation-marker values of a text, in order of appearance (with
repetitions). -/
def textMarkers (s : String) : List Nat :=
  (tokenize s.data Option.none).filterMap tokMarker

/-- Render a token back to characters, rewriting a marker through `remap`
when it is mapped and keeping its original digits otherwise. -/
def renderTok (remap : Nat → Option Nat) : Tok → List Char
  | .ch c => [c]
  | .marker n ds =>
    match remap n with
    | some n' => '[' :: (toString n').data ++ [']']
    | Option.none => '[' :: ds ++ [']']

/-- Modelled from the spec: rewrite every mapped citation marker of a text to
its new number, leaving everything else unchanged. -/
def rewriteMarkers (s : String) (remap : Nat → Option Nat) : String :=
  String.mk (((tokenize s.data Option.none).map (renderTok remap)).flatten)

/-- De-duplicate, keeping the first occurrence of each value; the second
argument accumulates the values already seen. -/
def dedupFirst : List Nat → List Nat → List Nat
  | [], _ => []
  | n :: rest, seen =>
    if n ∈ seen then dedupFirst rest seen else n :: dedupFirst rest (n :: seen)

/-- Assign new sequential citation numbers, starting at `next`, to the cited
numbers that have a matching evidence item; numbers without evidence are
skipped.  Returns the mapping from old number to renumbered evidence item, in
order. -/
def buildRenumbering (find : Nat → Option Source) : List Nat → Nat → List (Nat × Source)
  | [], _ => []
  | n :: rest, next =>
    match find n with
    | some s => (n, ⟨next, s.title, s.url⟩) :: buildRenumbering find rest (next + 1)
    | Option.none => buildRenumbering find rest next

/-- Modelled from the spec: `RAGSystem._extract_cited_sources` lives in
`rag_system.py`, which is not among the sources (only its tests are).  Per
spec §4.5: scan the text for `[n]` markers in order of first appearance,
de-duplicate, keep only the evidence items whose citation number appears,
renumber them sequentially starting at 1 in that order, and rewrite every
matched marker in the text to its new number. -/
def extract_cited_sources (response : String) (all_sources : List Source) :
    String × List Source :=
  let citedNums := dedupFirst (textMarkers response) []
  let find := fun n => all_sources.find? (fun s => s.citationNum == n)
  let ren := buildRenumbering find citedNums 1
  let remap := fun n => (ren.lookup n).map Source.citationNum
  (rewriteMarkers response remap, ren.map Prod.snd)

/-- The tracker state of the first registered tool, used to observe the
effect of `ToolManager.reset_sources` on a concrete registry. -/
def stFirstTracker (tm : ToolManager) : Option SearchState :=
  match tm.tools with
  | [] => Option.none
  | p :: _ =>
    match p.2.evidence with
    | .tracker st => some st
    | _ => Option.none

/-! Concrete fixtures used by witnesses and counterexamples. -/

/-- A vector store whose search always succeeds with an empty result set. -/
def store0 : VectorStore := ⟨fun _ _ _ => ⟨[], [], Option.none⟩, fun _ _ => Option.none⟩

/-- An arbitrary concrete tool input. -/
def argsA : ToolInput := ⟨"", Option.none, Option.none, ""⟩

/-- A concrete registered tool. -/
def toolA : Tool :=
  ⟨⟨some "search_course_content", "d"⟩, fun _ e => ("r", e), .tracker ⟨[], 0⟩⟩

/-- A registry holding `toolA`. -/
def tmA : ToolManager := ⟨[("search_course_content", toolA)]⟩

/-- The tool definition offered to the endpoint in concrete runs. -/
def tdA : ToolDef := ⟨some "search_course_content", "d"⟩

/-- An endpoint that requests tool use on every call where tools are offered
and otherwise answers with a plain text that carries no citation pattern. -/
def epX : Endpoint := fun _ p =>
  match p.tools with
  | some _ => ⟨"tool_use", [.toolUse "id1" "search_course_content" argsA]⟩
  | Option.none => ⟨"end_turn", [.text "no citations here"]⟩

/-- An endpoint that requests tool use on every call where tools are offered
and otherwise answers with a plain text carrying a citation pattern. -/
def epC : Endpoint := fun _ p =>
  match p.tools with
  | some _ => ⟨"tool_use", [.toolUse "id1" "search_course_content" argsA]⟩
  | Option.none => ⟨"end_turn", [.text "answer [1]"]⟩

/-- An endpoint answering uncited text on the first call and a revision on
every later call. -/
def epB : Endpoint := fun i _ =>
  if i = 0 then ⟨"end_turn", [.text "uncited text"]⟩
  else ⟨"end_turn", [.text "revised text"]⟩

/-- An endpoint that always answers with the same plain text. -/
def epT : Endpoint := fun _ _ => ⟨"end_turn", [.text "plain answer"]⟩

/-- A concrete message chain containing one prior user message. -/
def msgsB : List Message := [⟨"user", .text "q"⟩]

/-- An evidence-tracking tool with one accumulated source. -/
def toolW : Tool :=
  ⟨⟨some "search_course_content", "d"⟩, fun _ e => ("r", e),
    .tracker ⟨[⟨1, "t", Option.none⟩], 1⟩⟩

/-- A registry holding `toolW`. -/
def tmW : ToolManager := ⟨[("search_course_content", toolW)]⟩

/-- First of two distinct tools sharing one definition name. -/
def t1W : Tool := ⟨⟨some "search_course_content", "one"⟩, fun _ e => ("one", e), .absent⟩

/-- Second of two distinct tools sharing one definition name. -/
def t2W : Tool := ⟨⟨some "search_course_content", "two"⟩, fun _ e => ("two", e), .absent⟩

/-! Theorems. -/

theorem resetEvidence_idem (e : EvidenceCap) : resetEvidence (resetEvidence e) = resetEvidence e := by
  cases e <;> rfl

theorem resetEvidence_tracker (e : EvidenceCap) (st : SearchState)
    (h : resetEvidence e = EvidenceCap.tracker st) : st = ⟨[], 0⟩ := by
  cases e <;> simp [resetEvidence] at h
  exact h.symm

/-- Claim C7 (confirmed): `ToolManager.execute_tool` returns the literal
string `"Tool '{name}' not found"` for an unregistered name — total, so no
exception is raised — and forwards the arguments to the registered tool's
`execute` otherwise. -/
theorem C7_dispatch (tm : ToolManager) (tool_name : String) (args : ToolInput) :
    (tm.tools.lookup tool_name = Option.none →
      ToolManager.execute_tool tm tool_name args = ("Tool '" ++ tool_name ++ "' not found", tm))
    ∧ ∀ t, tm.tools.lookup tool_name = some t →
        (ToolManager.execute_tool tm tool_name args).1 = (t.invoke args t.evidence).1 := by
  constructor
  · intro h
    simp [ToolManager.execute_tool, h]
  · intro t h
    simp [ToolManager.execute_tool, h]

/-- Witness for C7 at a concrete registry and name. -/
theorem C7_dispatch_witness :
    (ToolManager.execute_tool ⟨[]⟩ "missing_tool" argsA).1 = "Tool 'missing_tool' not found" := by
  have h := (C7_dispatch ⟨[]⟩ "missing_tool" argsA).1 rfl
  rw [h]
  decide

/-- Claim C8 (confirmed): `ToolManager.reset_sources` is idempotent, and after
one call every evidence-tracking tool holds an empty evidence list and a zero
citation counter. -/
theorem C8_clear_evidence_idempotent (tm : ToolManager) :
    ToolManager.reset_sources (ToolManager.reset_sources tm) = ToolManager.reset_sources tm
    ∧ ∀ p ∈ (ToolManager.reset_sources tm).tools, ∀ st,
        p.2.evidence = EvidenceCap.tracker st → st.allSources = [] ∧ st.sourceCounter = 0 := by
  obtain ⟨ts⟩ := tm
  constructor
  · simp only [ToolManager.reset_sources, List.map_map, ToolManager.mk.injEq]
    apply List.map_congr_left
    intro p _
    simp [Function.comp, resetEvidence_idem]
  · intro p hp st hst
    simp only [ToolManager.reset_sources, List.mem_map] at hp
    obtain ⟨q, _, hq⟩ := hp
    subst hq
    simp only at hst
    have := resetEvidence_tracker q.2.evidence st hst
    subst this
    exact ⟨rfl, rfl⟩

/-- Witness for C8 at a concrete registry whose tracker holds one source. -/
theorem C8_clear_evidence_idempotent_witness :
    ToolManager.reset_sources (ToolManager.reset_sources tmW) = ToolManager.reset_sources tmW
    ∧ stFirstTracker (ToolManager.reset_sources tmW) = some ⟨[], 0⟩ :=
  ⟨(C8_clear_evidence_idempotent tmW).1, rfl⟩

/-- Claim C10 (confirmed): `_extract_text_response` yields `""` when the
content has no text block and the first text block's text otherwise, and a
plain-text first endpoint response makes `generate_response` return exactly
that extraction. -/
theorem C10_extract_text (content : List ContentBlock) :
    ((∀ b ∈ content, isTextBlock b = false) → extractTextResponse content = "")
    ∧ (∀ pre t rest, content = pre ++ ContentBlock.text t :: rest →
        (∀ b ∈ pre, isTextBlock b = false) → extractTextResponse content = t)
    ∧ ∀ (cfg : Nat) (ep : Endpoint) (q : String) (hist : Option String)
        (tmOpt : Option ToolManager),
        (ep 0 ⟨[⟨"user", .text q⟩], buildSystemContent hist, Option.none⟩).stop_reason ≠ "tool_use" →
        (ep 0 ⟨[⟨"user", .text q⟩], buildSystemContent hist, Option.none⟩).content = content →
        generateResponse cfg ep q hist Option.none tmOpt =
          some (extractTextResponse content, [⟨false, 0, true⟩]) := by
  refine ⟨?_, ?_, ?_⟩
  · intro h
    induction content with
    | nil => rfl
    | cons b rest ih =>
      cases b with
      | text t =>
        have hb := h (ContentBlock.text t) (by simp)
        simp [isTextBlock] at hb
      | toolUse i n input =>
        simpa [extractTextResponse] using ih (fun b hb => h b (by simp [hb]))
  · intro pre t rest hcontent hpre
    subst hcontent
    induction pre with
    | nil => rfl
    | cons b pre' ih =>
      cases b with
      | text u =>
        have hb := hpre (ContentBlock.text u) (by simp)
        simp [isTextBlock] at hb
      | toolUse i n input =>
        simpa [extractTextResponse] using ih (fun b hb => hpre b (by simp [hb]))
  · intro cfg ep q hist tmOpt hstop hcontent
    unfold generateResponse generateLoopAux
    simp [hstop, hcontent]

/-- Witness for C10 at concrete content lists. -/
theorem C10_extract_text_witness :
    extractTextResponse [ContentBlock.toolUse "i" "n" argsA] = ""
    ∧ extractTextResponse
        [ContentBlock.toolUse "i" "n" argsA, ContentBlock.text "hello",
          ContentBlock.text "world"] = "hello" := by
  constructor
  · exact (C10_extract_text [ContentBlock.toolUse "i" "n" argsA]).1 (by decide)
  · exact (C10_extract_text _).2.1 [ContentBlock.toolUse "i" "n" argsA] "hello"
      [ContentBlock.text "world"] rfl (by decide)

/-- Claim C6 (corrected): on an error-free empty result set, `execute`
returns `"No relevant content found"` with a suffix for a supplied non-empty
`course_name` and a supplied non-zero `lesson_number`, in that order, followed
by a period.  (Python truthiness drops the suffix for `lesson_number = 0` and
`course_name = ""`.) -/
theorem C6_empty_result_message (store : VectorStore) (st : SearchState) (query : String)
    (course_name : Option String) (lesson_number : Option Int) :
    (store.search query course_name lesson_number).error = Option.none →
    (store.search query course_name lesson_number).documents = [] →
    CourseSearchTool.execute store st query course_name lesson_number =
      ("No relevant content found" ++
        ((match course_name with
          | some c => if c = "" then "" else " in course '" ++ c ++ "'"
          | Option.none => "") ++
         (match lesson_number with
          | some n => if n = 0 then "" else " in lesson " ++ toString n
          | Option.none => "")) ++ ".", st) := by
  intro he hd
  simp [CourseSearchTool.execute, strTruthy, he, SearchResults.is_empty, hd]

/-- Counterexample for C6 as stated: a supplied `lesson_number = 0` filter
(lesson 0 exists in this corpus) produces no `" in lesson 0"` suffix. -/
theorem C6_counterexample :
    (CourseSearchTool.execute store0 ⟨[], 0⟩ "q" Option.none (some 0)).1 =
      "No relevant content found."
    ∧ (CourseSearchTool.execute store0 ⟨[], 0⟩ "q" Option.none (some 0)).1 ≠
        "No relevant content found in lesson 0." := by
  constructor
  · decide
  · decide

/-- Witness for C6 at a concrete store with both filters active. -/
theorem C6_empty_result_message_witness :
    CourseSearchTool.execute store0 ⟨[], 0⟩ "q" (some "MCP") (some 2) =
      ("No relevant content found in course 'MCP' in lesson 2.", ⟨[], 0⟩) := by
  have h := C6_empty_result_message store0 ⟨[], 0⟩ "q" (some "MCP") (some 2) rfl rfl
  exact h.trans (by decide)

theorem formatResultsAux_sources (store : VectorStore) :
    ∀ (pairs : List (String × Meta)) (st : SearchState),
      ∃ t, (CourseSearchTool.formatResultsAux store pairs st).2.allSources = st.allSources ++ t
        ∧ t.map Source.citationNum = List.range' (st.sourceCounter + 1) pairs.length
        ∧ (CourseSearchTool.formatResultsAux store pairs st).2.sourceCounter =
            st.sourceCounter + pairs.length := by
  intro pairs
  induction pairs with
  | nil =>
    intro st
    exact ⟨[], by simp [CourseSearchTool.formatResultsAux]⟩
  | cons p rest ih =>
    intro st
    obtain ⟨d, m⟩ := p
    set item : Source :=
      ⟨st.sourceCounter + 1,
       match m.lesson_number with
       | some n => m.course_title.getD "unknown" ++ " - Lesson " ++ toString n
       | Option.none => m.course_title.getD "unknown",
       match m.lesson_number with
       | some n => store.get_lesson_link (m.course_title.getD "unknown") n
       | Option.none => Option.none⟩ with hitem
    obtain ⟨t', h1, h2, h3⟩ := ih ⟨st.allSources ++ [item], st.sourceCounter + 1⟩
    refine ⟨item :: t', ?_, ?_, ?_⟩
    · simpa [CourseSearchTool.formatResultsAux, hitem] using h1
    · simp only [List.map_cons, List.length_cons]
      rw [List.range'_succ]
      exact congrArg (fun l => (st.sourceCounter + 1) :: l) (by simpa using h2)
    · simp only [CourseSearchTool.formatResultsAux, List.length_cons]
      rw [← hitem]
      simp only [h3]
      omega

theorem execute_sources (store : VectorStore) (st : SearchState) (q : String)
    (cn : Option String) (ln : Option Int) :
    ∃ t, (CourseSearchTool.execute store st q cn ln).2.allSources = st.allSources ++ t
      ∧ t.map Source.citationNum = List.range' (st.sourceCounter + 1) t.length
      ∧ (CourseSearchTool.execute store st q cn ln).2.sourceCounter =
          st.sourceCounter + t.length := by
  unfold CourseSearchTool.execute
  by_cases he : strTruthy (store.search q cn ln).error
  · exact ⟨[], by simp [he]⟩
  · by_cases hd : (store.search q cn ln).is_empty
    · exact ⟨[], by simp [he, hd]⟩
    · simp only [he, hd, if_false, Bool.false_eq_true]
      obtain ⟨t, h1, h2, h3⟩ := formatResultsAux_sources store
        ((store.search q cn ln).documents.zip (store.search q cn ln).metadata) st
      have hlen : t.length =
          ((store.search q cn ln).documents.zip (store.search q cn ln).metadata).length := by
        have := congrArg List.length h2
        simpa using this
      refine ⟨t, ?_, ?_, ?_⟩
      · simpa [CourseSearchTool.formatResults] using h1
      · rw [hlen]; exact h2
      · rw [hlen]
        simpa [CourseSearchTool.formatResults] using h3

theorem runSearches_inv (store : VectorStore) :
    ∀ (argsList : List (String × Option String × Option Int)) (st : SearchState),
      st.allSources.map Source.citationNum = List.range' 1 st.sourceCounter →
      (runSearches store argsList st).allSources.map Source.citationNum =
        List.range' 1 (runSearches store argsList st).sourceCounter := by
  intro argsList
  induction argsList with
  | nil => intro st h; exact h
  | cons a rest ih =>
    intro st h
    obtain ⟨q, cn, ln⟩ := a
    simp only [runSearches]
    apply ih
    obtain ⟨t, h1, h2, h3⟩ := execute_sources store st q cn ln
    rw [h1, h3, List.map_append, h, h2]
    have := List.range'_append 1 st.sourceCounter t.length 1
    simpa [Nat.add_comm, Nat.one_mul] using this

/-- Claim C3 (confirmed): across any sequence of content-search invocations
started from a freshly reset state, the citation numbers in the accumulated
evidence are exactly `1..total`, in creation order; each single invocation
only extends the evidence list, issuing the numbers `counter+1, counter+2, …`
so that a later invocation continues from the counter's prior value. -/
theorem C3_cumulative_citation_numbers (store : VectorStore) :
    (∀ (argsList : List (String × Option String × Option Int)) (st0 : SearchState),
      (runSearches store argsList (CourseSearchTool.reset_sources st0)).allSources.map
          Source.citationNum =
        List.range' 1
          (runSearches store argsList (CourseSearchTool.reset_sources st0)).allSources.length
      ∧ (runSearches store argsList (CourseSearchTool.reset_sources st0)).sourceCounter =
          (runSearches store argsList (CourseSearchTool.reset_sources st0)).allSources.length)
    ∧ ∀ (st : SearchState) (q : String) (cn : Option String) (ln : Option Int),
        st.sourceCounter ≤ (CourseSearchTool.execute store st q cn ln).2.sourceCounter
        ∧ ∃ t, (CourseSearchTool.execute store st q cn ln).2.allSources = st.allSources ++ t
            ∧ t.map Source.citationNum = List.range' (st.sourceCounter + 1) t.length := by
  constructor
  · intro argsList st0
    have hinv := runSearches_inv store argsList (CourseSearchTool.reset_sources st0)
      (by simp [CourseSearchTool.reset_sources])
    have hlen : (runSearches store argsList (CourseSearchTool.reset_sources st0)).allSources.length =
        (runSearches store argsList (CourseSearchTool.reset_sources st0)).sourceCounter := by
      have := congrArg List.length hinv
      simpa using this
    exact ⟨by rw [hlen]; exact hinv, hlen.symm⟩
  · intro st q cn ln
    obtain ⟨t, h1, h2, h3⟩ := execute_sources store st q cn ln
    exact ⟨by omega, t, h1, h2⟩

theorem buildRenumbering_nums (find : Nat → Option Source) :
    ∀ (l : List Nat) (next : Nat),
      ((buildRenumbering find l next).map Prod.snd).map Source.citationNum =
        List.range' next (buildRenumbering find l next).length := by
  intro l
  induction l with
  | nil => intro next; rfl
  | cons n rest ih =>
    intro next
    cases hf : find n with
    | none =>
      simp only [buildRenumbering, hf]
      exact ih next
    | some s =>
      simp only [buildRenumbering, hf, List.map_cons, List.length_cons]
      rw [List.range'_succ]
      exact congrArg (fun l => next :: l) (ih (next + 1))

theorem buildRenumbering_pairs (find : Nat → Option Source) :
    ∀ (l : List Nat) (next : Nat),
      (buildRenumbering find l next).map (fun p => (p.2.title, p.2.url)) =
        l.filterMap (fun n => (find n).map (fun s => (s.title, s.url))) := by
  intro l
  induction l with
  | nil => intro next; rfl
  | cons n rest ih =>
    intro next
    cases hf : find n with
    | none => simp only [buildRenumbering, hf, List.filterMap_cons, Option.map_none]; exact ih next
    | some s =>
      simp only [buildRenumbering, hf, List.map_cons, List.filterMap_cons, Option.map_some]
      exact congrArg (fun l => (s.title, s.url) :: l) (ih (next + 1))

theorem buildRenumbering_none (find : Nat → Option Source) (hf : ∀ n, find n = Option.none) :
    ∀ (l : List Nat) (next : Nat), buildRenumbering find l next = [] := by
  intro l
  induction l with
  | nil => intro next; rfl
  | cons n rest ih =>
    intro next
    simp only [buildRenumbering, hf n]
    exact ih next

theorem renderTok_ch_flatten (r : Nat → Option Nat) :
    ∀ (l : List Char), (l.map (renderTok r ∘ Tok.ch)).flatten = l := by
  intro l
  induction l with
  | nil => rfl
  | cons c rest ih => simp only [List.map_cons, List.flatten_cons, ih, Function.comp]; rfl

theorem tokenize_render_unmapped (r : Nat → Option Nat) (hr : ∀ n, r n = Option.none) :
    ∀ (cs : List Char) (pend : Option (List Char)),
      ((tokenize cs pend).map (renderTok r)).flatten =
        (match pend with
         | some p => '[' :: p
         | Option.none => []) ++ cs := by
  intro cs
  induction cs with
  | nil =>
    intro pend
    cases pend with
    | none => rfl
    | some p => simp [tokenize, renderTok, renderTok_ch_flatten r]
  | cons c rest ih =>
    intro pend
    cases pend with
    | none =>
      by_cases hc : c = '['
      · subst hc
        simpa [tokenize] using ih (some [])
      · simpa [tokenize, hc, renderTok] using ih Option.none
    | some pend =>
      by_cases hdig : c.isDigit
      · have := ih (some (pend ++ [c]))
        simp only [tokenize, hdig, if_true] at this ⊢
        rw [this]
        simp
      · by_cases hrb : c = ']'
        · subst hrb
          by_cases hpe : pend.isEmpty
          · have hp : pend = [] := by simpa [List.isEmpty_iff] using hpe
            subst hp
            simpa [tokenize, hdig, renderTok] using ih Option.none
          · have := ih Option.none
            simp only [tokenize, hdig, hpe, if_false, Bool.false_eq_true, if_true] at this ⊢
            simp [renderTok, hr, this]
        · by_cases hlb : c = '['
          · subst hlb
            have := ih (some [])
            simp only [tokenize, hdig, if_false, Bool.false_eq_true] at this ⊢
            simp [hrb, renderTok, renderTok_ch_flatten r, this]
          · have := ih Option.none
            simp only [tokenize, hdig, if_false, Bool.false_eq_true] at this ⊢
            simp [hrb, hlb, renderTok, renderTok_ch_flatten r, this]

/-- Claim C4 (confirmed, spec-modelled): the caller-side citation filtering
renumbers the kept evidence sequentially from 1 in order of first appearance
in the text, keeps exactly the evidence items whose citation number appears
as a marker, returns a citation-free text with empty evidence unchanged, and
reproduces the concrete scenarios of `tests/test_rag_system.py`. -/
theorem C4_extract_cited_sources :
    (∀ (response : String) (all_sources : List Source),
      (extract_cited_sources response all_sources).2.map Source.citationNum =
        List.range' 1 (extract_cited_sources response all_sources).2.length
      ∧ (extract_cited_sources response all_sources).2.map (fun s => (s.title, s.url)) =
          (dedupFirst (textMarkers response) []).filterMap
            (fun n => (all_sources.find? (fun s => s.citationNum == n)).map
              (fun s => (s.title, s.url))))
    ∧ (∀ response : String, textMarkers response = [] →
        extract_cited_sources response [] = (response, []))
    ∧ extract_cited_sources "This is about MCP [1] and protocols [3]."
        [⟨1, "Source 1", some "url1"⟩, ⟨2, "Source 2", some "url2"⟩,
          ⟨3, "Source 3", some "url3"⟩] =
        ("This is about MCP [1] and protocols [2].",
          [⟨1, "Source 1", some "url1"⟩, ⟨2, "Source 3", some "url3"⟩])
    ∧ extract_cited_sources "First point [3] and second point [5]."
        [⟨3, "Source 3", some "url3"⟩, ⟨5, "Source 5", some "url5"⟩] =
        ("First point [1] and second point [2].",
          [⟨1, "Source 3", some "url3"⟩, ⟨2, "Source 5", some "url5"⟩])
    ∧ extract_cited_sources "This response has no citations." [⟨1, "Source 1", some "url1"⟩] =
        ("This response has no citations.", []) := by
  refine ⟨?_, ?_, by decide, by decide, by decide⟩
  · intro response all_sources
    constructor
    · simp only [extract_cited_sources]
      rw [List.length_map]
      exact buildRenumbering_nums _ _ 1
    · simp only [extract_cited_sources, List.map_map]
      exact buildRenumbering_pairs _ _ 1
  · intro response _
    simp only [extract_cited_sources]
    have hfind : ∀ n, ([] : List Source).find? (fun s => s.citationNum == n) = Option.none :=
      fun _ => rfl
    rw [buildRenumbering_none _ hfind]
    refine Prod.ext ?_ rfl
    show rewriteMarkers response _ = response
    have hrw := tokenize_render_unmapped
      (fun n => (List.lookup n ([] : List (Nat × Source))).map Source.citationNum)
      (fun _ => rfl) response.data Option.none
    rw [rewriteMarkers, hrw]
    rfl

/-- Witness for C4 at the citation-free, empty-evidence test input. -/
theorem C4_extract_cited_sources_witness :
    extract_cited_sources "No citations here." [] = ("No citations here.", []) :=
  C4_extract_cited_sources.2.1 "No citations here." (by decide)

theorem ensure_recs_inLoop (ep : Endpoint) (callIdx : Nat) (resp : EndpointResponse)
    (msgs : List Message) (system : String) (count : Nat) :
    ∀ r ∈ (ensureCitationsInResponse ep callIdx resp msgs system count).2, r.inLoop = false := by
  unfold ensureCitationsInResponse
  by_cases hcit : hasCitation (extractTextResponse resp.content) <;> simp [hcit]

theorem loopRecsToolsOffered (cfg : Nat) (ep : Endpoint) (toolsOpt : Option (List ToolDef))
    (system : String) :
    ∀ (fuel : Nat) (msgs : List Message) (tmOpt : Option ToolManager) (count callIdx : Nat)
      (res : String × List CallRec),
      generateLoopAux cfg ep toolsOpt system fuel msgs tmOpt count callIdx = some res →
      ∀ r ∈ res.2, r.inLoop = true →
        r.toolsOffered = (toolsOpt.isSome && tmOpt.isSome && decide (r.toolCallCount < cfg)) := by
  intro fuel
  induction fuel with
  | zero =>
    intro msgs tmOpt count callIdx res hres r hr hloop
    unfold generateLoopAux at hres
    dsimp only at hres
    split at hres
    all_goals split at hres
    all_goals try split at hres
    all_goals try split at hres
    all_goals
      first
      | exact Option.noConfusion hres
      | (obtain rfl := (Option.some.inj hres).symm
         simp only [forceFinalResponse, List.mem_cons, List.not_mem_nil, or_false] at hr
         first
         | (subst hr; rfl)
         | (rcases hr with h | h
            · subst h; rfl
            · first
              | (subst h; exact absurd hloop (by simp))
              | (have hx := ensure_recs_inLoop ep (callIdx + 1) _ msgs system count r h
                 rw [hloop] at hx
                 exact absurd hx (by simp))))
  | succ fuel ih =>
    intro msgs tmOpt count callIdx res hres r hr hloop
    unfold generateLoopAux at hres
    dsimp only at hres
    split at hres
    all_goals split at hres
    all_goals try split at hres
    all_goals try split at hres
    all_goals
      first
      | exact Option.noConfusion hres
      | (obtain rfl := (Option.some.inj hres).symm
         simp only [forceFinalResponse, List.mem_cons, List.not_mem_nil, or_false] at hr
         first
         | (subst hr; rfl)
         | (rcases hr with h | h
            · subst h; rfl
            · first
              | (subst h; exact absurd hloop (by simp))
              | (have hx := ensure_recs_inLoop ep (callIdx + 1) _ msgs system count r h
                 rw [hloop] at hx
                 exact absurd hx (by simp))))
      | (rw [Option.map_eq_some'] at hres
         obtain ⟨res', hres', hfr⟩ := hres
         subst hfr
         simp only [List.mem_cons] at hr
         rcases hr with h | h
         · subst h; rfl
         · have hx := ih _ _ _ _ _ hres' r h hloop
           simpa using hx)

/-- Claim C5 (confirmed): every main-loop endpoint call offers tool
definitions exactly when tools were supplied, a tool manager was supplied,
and the running tool-call count is below the configured maximum; a query with
no tools supplied against a plain-text endpoint makes exactly one call with
the `tools` parameter absent. -/
theorem C5_tools_offered_iff :
    (∀ (cfg : Nat) (ep : Endpoint) (toolsOpt : Option (List ToolDef)) (system : String)
        (fuel : Nat) (msgs : List Message) (tmOpt : Option ToolManager) (count callIdx : Nat)
        (res : String × List CallRec),
        generateLoopAux cfg ep toolsOpt system fuel msgs tmOpt count callIdx = some res →
        ∀ r ∈ res.2, r.inLoop = true →
          r.toolsOffered = (toolsOpt.isSome && tmOpt.isSome && decide (r.toolCallCount < cfg)))
    ∧ ∀ (cfg : Nat) (ep : Endpoint) (q : String) (hist : Option String)
        (tmOpt : Option ToolManager),
        (ep 0 ⟨[⟨"user", .text q⟩], buildSystemContent hist, Option.none⟩).stop_reason ≠
          "tool_use" →
        generateResponse cfg ep q hist Option.none tmOpt =
          some (extractTextResponse
              (ep 0 ⟨[⟨"user", .text q⟩], buildSystemContent hist, Option.none⟩).content,
            [⟨false, 0, true⟩]) := by
  constructor
  · intro cfg ep toolsOpt system fuel msgs tmOpt count callIdx res hres
    exact loopRecsToolsOffered cfg ep toolsOpt system fuel msgs tmOpt count callIdx res hres
  · intro cfg ep q hist tmOpt hstop
    unfold generateResponse generateLoopAux
    simp [hstop]

/-- Witness for C5 at a concrete no-tools run. -/
theorem C5_tools_offered_iff_witness :
    generateResponse 4 epT "hello" Option.none Option.none Option.none =
      some ("plain answer", [⟨false, 0, true⟩]) := by
  have h := C5_tools_offered_iff.2 4 epT "hello" Option.none Option.none (by decide)
  exact h.trans (by decide)

/-- Claim C2 (confirmed): when at least one tool round has occurred and the
endpoint returns plain text, a text without a bracket-digit citation triggers
exactly one additional endpoint call — made without tools, after appending
the uncited answer and the citation reminder — whose text is returned
unconditionally; a text with such a citation is returned as-is with no
additional call. -/
theorem C2_citation_assurance (cfg : Nat) (ep : Endpoint) (toolsOpt : Option (List ToolDef))
    (system : String) (fuel : Nat) (msgs : List Message) (tmOpt : Option ToolManager)
    (count callIdx : Nat) (resp : EndpointResponse)
    (hcount : 0 < count)
    (hresp : resp = ep callIdx ⟨msgs, system,
      if (toolsOpt.isSome && tmOpt.isSome && decide (count < cfg)) then toolsOpt
      else Option.none⟩)
    (hstop : resp.stop_reason ≠ "tool_use") :
    (hasCitation (extractTextResponse resp.content) = false →
      generateLoopAux cfg ep toolsOpt system fuel msgs tmOpt count callIdx =
        some (extractTextResponse (ep (callIdx + 1)
            ⟨msgs ++ [⟨"assistant", .text (extractTextResponse resp.content)⟩,
              ⟨"user", .text citationReminder⟩], system, Option.none⟩).content,
          [⟨toolsOpt.isSome && tmOpt.isSome && decide (count < cfg), count, true⟩,
            ⟨false, count, false⟩]))
    ∧ (hasCitation (extractTextResponse resp.content) = true →
      generateLoopAux cfg ep toolsOpt system fuel msgs tmOpt count callIdx =
        some (extractTextResponse resp.content,
          [⟨toolsOpt.isSome && tmOpt.isSome && decide (count < cfg), count, true⟩])) := by
  constructor
  · intro hcit
    unfold generateLoopAux
    dsimp only
    rw [← hresp]
    simp [hstop, hcount, ensureCitationsInResponse, hcit]
  · intro hcit
    unfold generateLoopAux
    dsimp only
    rw [← hresp]
    simp [hstop, hcount, ensureCitationsInResponse, hcit]

theorem loopAllToolUseCited (cfg : Nat) (ep : Endpoint) (tds : List ToolDef) (system : String)
    (h1 : forall i p, p.tools ≠ Option.none → (ep i p).stop_reason = "tool_use")
    (h2 : forall i p, p.tools = Option.none → (ep i p).stop_reason ≠ "tool_use")
    (hc : forall i p, p.tools = Option.none →
      hasCitation (extractTextResponse (ep i p).content) = true)
    (hcfg : 1 ≤ cfg) :
    forall (fuel count : Nat), count + fuel = cfg →
      forall (msgs : List Message) (tm : ToolManager) (callIdx : Nat),
        ∃ txt recs,
          generateLoopAux cfg ep (some tds) system fuel msgs (some tm) count callIdx =
            some (txt, recs)
          ∧ recs.map CallRec.toolsOffered = List.replicate fuel true ++ [false] := by
  intro fuel
  induction fuel with
  | zero =>
    intro count hcount msgs tm callIdx
    have hcnt : count = cfg := by omega
    have hdec : decide (count < cfg) = false := by simp [hcnt]
    have hstop := h2 callIdx ⟨msgs, system, Option.none⟩ rfl
    have hcit := hc callIdx ⟨msgs, system, Option.none⟩ rfl
    have h0 : 0 < count := by omega
    refine ⟨extractTextResponse (ep callIdx ⟨msgs, system, Option.none⟩).content,
      [⟨false, count, true⟩], ?_, by simp⟩
    unfold generateLoopAux
    dsimp only
    simp [hdec, hstop, h0, ensureCitationsInResponse, hcit]
  | succ fuel ih =>
    intro count hcount msgs tm callIdx
    have hlt : count < cfg := by omega
    have hnle : ¬ cfg ≤ count := by omega
    have hcanUse : ((some tds).isSome && (some tm).isSome && decide (count < cfg)) = true := by
      simp [hlt]
    have hstop := h1 callIdx ⟨msgs, system, some tds⟩ (by simp)
    obtain ⟨txt, recs, hrun, hmap⟩ := ih (count + 1) (by omega)
      (executeToolsAndUpdateMessages (ep callIdx ⟨msgs, system, some tds⟩) msgs tm).1
      (executeToolsAndUpdateMessages (ep callIdx ⟨msgs, system, some tds⟩) msgs tm).2
      (callIdx + 1)
    refine ⟨txt, ⟨true, count, true⟩ :: recs, ?_, ?_⟩
    · unfold generateLoopAux
      dsimp only
      simp [hlt, hstop, hnle, hrun]
    · simp [hmap, List.replicate_succ]

theorem loopAllToolUseUncited (cfg : Nat) (ep : Endpoint) (tds : List ToolDef) (system : String)
    (h1 : forall i p, p.tools ≠ Option.none → (ep i p).stop_reason = "tool_use")
    (h2 : forall i p, p.tools = Option.none → (ep i p).stop_reason ≠ "tool_use")
    (hc : forall i p, p.tools = Option.none →
      hasCitation (extractTextResponse (ep i p).content) = false)
    (hcfg : 1 ≤ cfg) :
    forall (fuel count : Nat), count + fuel = cfg →
      forall (msgs : List Message) (tm : ToolManager) (callIdx : Nat),
        ∃ txt recs,
          generateLoopAux cfg ep (some tds) system fuel msgs (some tm) count callIdx =
            some (txt, recs)
          ∧ recs.map CallRec.toolsOffered = List.replicate fuel true ++ [false, false] := by
  intro fuel
  induction fuel with
  | zero =>
    intro count hcount msgs tm callIdx
    have hcnt : count = cfg := by omega
    have hdec : decide (count < cfg) = false := by simp [hcnt]
    have hstop := h2 callIdx ⟨msgs, system, Option.none⟩ rfl
    have hcit := hc callIdx ⟨msgs, system, Option.none⟩ rfl
    have h0 : 0 < count := by omega
    refine ⟨(ensureCitationsInResponse ep (callIdx + 1)
        (ep callIdx ⟨msgs, system, Option.none⟩) msgs system count).1,
      [⟨false, count, true⟩, ⟨false, count, false⟩], ?_, by simp⟩
    unfold generateLoopAux
    dsimp only
    simp [hdec, hstop, h0, ensureCitationsInResponse, hcit]
  | succ fuel ih =>
    intro count hcount msgs tm callIdx
    have hlt : count < cfg := by omega
    have hnle : ¬ cfg ≤ count := by omega
    have hcanUse : ((some tds).isSome && (some tm).isSome && decide (count < cfg)) = true := by
      simp [hlt]
    have hstop := h1 callIdx ⟨msgs, system, some tds⟩ (by simp)
    obtain ⟨txt, recs, hrun, hmap⟩ := ih (count + 1) (by omega)
      (executeToolsAndUpdateMessages (ep callIdx ⟨msgs, system, some tds⟩) msgs tm).1
      (executeToolsAndUpdateMessages (ep callIdx ⟨msgs, system, some tds⟩) msgs tm).2
      (callIdx + 1)
    refine ⟨txt, ⟨true, count, true⟩ :: recs, ?_, ?_⟩
    · unfold generateLoopAux
      dsimp only
      simp [hlt, hstop, hnle, hrun]
    · simp [hmap, List.replicate_succ]

/-- Claim C1 (corrected): with tools and a registry supplied and an endpoint
that requests tool use exactly where tools are offered, `generate_response`
makes exactly `max_rounds + 1` endpoint calls when the final tool-free
response carries a bracket-digit citation and `max_rounds + 2` when it does
not; in both cases every final call is made without tools offered. -/
theorem C1_loop_call_count (cfg : Nat) (ep : Endpoint) (tds : List ToolDef) (q : String)
    (hist : Option String) (tm : ToolManager)
    (h1 : forall i p, p.tools ≠ Option.none → (ep i p).stop_reason = "tool_use")
    (h2 : forall i p, p.tools = Option.none → (ep i p).stop_reason ≠ "tool_use")
    (hcfg : 1 ≤ cfg) :
    ((forall i p, p.tools = Option.none →
        hasCitation (extractTextResponse (ep i p).content) = true) →
      ∃ txt recs, generateResponse cfg ep q hist (some tds) (some tm) = some (txt, recs)
        ∧ recs.length = cfg + 1
        ∧ recs.map CallRec.toolsOffered = List.replicate cfg true ++ [false])
    ∧ ((forall i p, p.tools = Option.none →
        hasCitation (extractTextResponse (ep i p).content) = false) →
      ∃ txt recs, generateResponse cfg ep q hist (some tds) (some tm) = some (txt, recs)
        ∧ recs.length = cfg + 2
        ∧ recs.map CallRec.toolsOffered = List.replicate cfg true ++ [false, false]) := by
  constructor
  · intro hc
    obtain ⟨txt, recs, hrun, hmap⟩ := loopAllToolUseCited cfg ep tds
      (buildSystemContent hist) h1 h2 hc hcfg cfg 0 (by omega)
      [⟨"user", .text q⟩] tm 0
    refine ⟨txt, recs, hrun, ?_, hmap⟩
    have := congrArg List.length hmap
    simpa using this
  · intro hc
    obtain ⟨txt, recs, hrun, hmap⟩ := loopAllToolUseUncited cfg ep tds
      (buildSystemContent hist) h1 h2 hc hcfg cfg 0 (by omega)
      [⟨"user", .text q⟩] tm 0
    refine ⟨txt, recs, hrun, ?_, hmap⟩
    have := congrArg List.length hmap
    simpa using this

/-- Counterexample for C1 as stated: at `max_rounds = 1`, against an endpoint
that requests tool use on every call where that is possible and whose final
tool-free answer lacks a citation pattern, the code makes 3 endpoint calls,
not `max_rounds + 1 = 2`. -/
theorem C1_counterexample :
    (generateResponse 1 epX "q" Option.none (some [tdA]) (some tmA)).map
        (fun r => r.2.length) = some 3
    ∧ (generateResponse 1 epX "q" Option.none (some [tdA]) (some tmA)).map
        (fun r => r.2.length) ≠ some (1 + 1) := by
  constructor
  · decide
  · decide

/-- Witness for C1 at a concrete citing endpoint and bound 1. -/
theorem C1_loop_call_count_witness :
    ∃ txt recs, generateResponse 1 epC "q" Option.none (some [tdA]) (some tmA) =
        some (txt, recs)
      ∧ recs.length = 1 + 1
      ∧ recs.map CallRec.toolsOffered = List.replicate 1 true ++ [false] := by
  refine (C1_loop_call_count 1 epC [tdA] "q" Option.none tmA ?_ ?_ (by decide)).1 ?_
  · intro i p hp
    rcases hpt : p.tools with _ | v
    · exact absurd hpt hp
    · simp [epC, hpt]
  · intro i p hp
    simp [epC, hp]
  · intro i p hp
    simp [epC, hp]
    all_goals decide

/-- Witness for C2 at a concrete run whose second response is returned. -/
theorem C2_citation_assurance_witness :
    generateLoopAux 0 epB Option.none "sys" 3 msgsB Option.none 1 0 =
      some ("revised text", [⟨false, 1, true⟩, ⟨false, 1, false⟩]) := by
  have h := (C2_citation_assurance 0 epB Option.none "sys" 3 msgsB Option.none 1 0
      (epB 0 ⟨msgsB, "sys",
        if ((Option.none : Option (List ToolDef)).isSome &&
            (Option.none : Option ToolManager).isSome && decide (1 < 0)) then Option.none
        else Option.none⟩)
      (by decide) rfl (by decide)).1 (by decide)
  exact h.trans (by decide)

theorem lookup_dictInsert (l : List (String × Tool)) (k : String) (v : Tool) :
    (dictInsert l k v).lookup k = some v := by
  induction l with
  | nil => simp [dictInsert, List.lookup]
  | cons p rest ih =>
    obtain ⟨k', v'⟩ := p
    cases h : k' == k with
    | true => simp [dictInsert, h, List.lookup]
    | false =>
      have h' : (k == k') = false := by
        rw [beq_eq_false_iff_ne] at h ⊢
        exact fun he => h he.symm
      simp [dictInsert, h, h', List.lookup, ih]

theorem count_some_keys (n : String) :
    ∀ l : List String, l.Nodup → n ∈ l → (l.map some).count (some n) = 1 := by
  intro l
  induction l with
  | nil => intro _ h; simp at h
  | cons a rest ih =>
    intro hnd hmem
    rcases List.mem_cons.mp hmem with rfl | h
    · have hnotin := (List.nodup_cons.mp hnd).1
      have hz : (rest.map some).count (some n) = 0 :=
        List.count_eq_zero.mpr (by simp [hnotin])
      simp [List.count_cons, hz]
    · have hne : ¬ a = n := fun he => (List.nodup_cons.mp hnd).1 (he ▸ h)
      have hr := ih (List.nodup_cons.mp hnd).2 h
      simp [List.count_cons, hr, hne]

theorem keys_dictInsert (l : List (String × Tool)) (k : String) (v : Tool) :
    (dictInsert l k v).map Prod.fst =
      if k ∈ l.map Prod.fst then l.map Prod.fst else l.map Prod.fst ++ [k] := by
  induction l with
  | nil => simp [dictInsert]
  | cons p rest ih =>
    obtain ⟨k', v'⟩ := p
    cases h : k' == k with
    | true =>
      have hk : k' = k := by simpa using h
      subst hk
      simp [dictInsert]
    | false =>
      have hne : ¬ k = k' := by
        have := (beq_eq_false_iff_ne (a := k') (b := k)).mp h
        exact fun he => this he.symm
      by_cases hm : k ∈ rest.map Prod.fst
      · simp [dictInsert, h, ih, hm, hne]
      · simp [dictInsert, h, ih, hm, hne]

theorem nodup_keys_dictInsert (l : List (String × Tool)) (k : String) (v : Tool)
    (h : (l.map Prod.fst).Nodup) : ((dictInsert l k v).map Prod.fst).Nodup := by
  rw [keys_dictInsert]
  by_cases hm : k ∈ l.map Prod.fst
  · simpa [hm] using h
  · simp only [hm, if_false]
    rw [List.nodup_append]
    refine ⟨h, by simp, ?_⟩
    intro a ha hb
    simp only [List.mem_singleton] at hb
    subst hb
    exact hm ha

theorem wf_dictInsert (l : List (String × Tool)) (k : String) (v : Tool)
    (hv : v.definition.name = some k)
    (hwf : ∀ p ∈ l, (p : String × Tool).2.definition.name = some p.1) :
    ∀ p ∈ dictInsert l k v, p.2.definition.name = some p.1 := by
  induction l with
  | nil =>
    intro p hp
    simp only [dictInsert, List.mem_singleton] at hp
    subst hp
    exact hv
  | cons q rest ih =>
    intro p hp
    obtain ⟨k', v'⟩ := q
    cases h : k' == k with
    | true =>
      simp only [dictInsert, h, if_true, List.mem_cons] at hp
      rcases hp with hp | hp
      · subst hp; exact hv
      · exact hwf p (by simp [hp])
    | false =>
      simp only [dictInsert, h, Bool.false_eq_true, if_false, List.mem_cons] at hp
      rcases hp with hp | hp
      · subst hp; exact hwf ⟨k', v'⟩ (by simp)
      · exact ih (fun q hq => hwf q (by simp [hq])) p hp

/-- Claim C9 (confirmed): registering a second tool under an already-used
non-empty name silently replaces the first — the definitions list carries the
name exactly once and dispatch reaches the most recently registered tool —
and registration fails exactly when the definition's name is missing or
empty. -/
theorem C9_register_replaces :
    (∀ (tm : ToolManager) (t1 t2 : Tool) (n : String) (args : ToolInput),
      (tm.tools.map Prod.fst).Nodup →
      (∀ p ∈ tm.tools, (p : String × Tool).2.definition.name = some p.1) →
      t1.definition.name = some n → t2.definition.name = some n → n ≠ "" →
      ∃ tm1, ToolManager.register_tool tm t1 = Except.ok tm1
        ∧ ∃ tm2, ToolManager.register_tool tm1 t2 = Except.ok tm2
          ∧ tm2.tools.lookup n = some t2
          ∧ (tm2.get_tool_definitions.map ToolDef.name).count (some n) = 1
          ∧ (tm2.execute_tool n args).1 = (t2.invoke args t2.evidence).1)
    ∧ ∀ (tm : ToolManager) (t : Tool),
        (∃ e, ToolManager.register_tool tm t = Except.error e) ↔
          (t.definition.name = Option.none ∨ t.definition.name = some "") := by
  constructor
  · intro tm t1 t2 n args hnd hwf h1 h2 hne
    refine ⟨⟨dictInsert tm.tools n t1⟩, by simp [ToolManager.register_tool, h1, hne],
      ⟨dictInsert (dictInsert tm.tools n t1) n t2⟩,
      by simp [ToolManager.register_tool, h2, hne], lookup_dictInsert _ n t2, ?_, ?_⟩
    · have hwf1 : ∀ p ∈ dictInsert tm.tools n t1,
          (p : String × Tool).2.definition.name = some p.1 :=
        wf_dictInsert tm.tools n t1 h1 hwf
      have hwf2 : ∀ p ∈ dictInsert (dictInsert tm.tools n t1) n t2,
          (p : String × Tool).2.definition.name = some p.1 :=
        wf_dictInsert _ n t2 h2 hwf1
      have hnd2 : ((dictInsert (dictInsert tm.tools n t1) n t2).map Prod.fst).Nodup :=
        nodup_keys_dictInsert _ n t2 (nodup_keys_dictInsert tm.tools n t1 hnd)
      have hmem : n ∈ (dictInsert (dictInsert tm.tools n t1) n t2).map Prod.fst := by
        rw [keys_dictInsert]
        by_cases hm : n ∈ (dictInsert tm.tools n t1).map Prod.fst <;> simp [hm]
      have hnames : (ToolManager.get_tool_definitions
            ⟨dictInsert (dictInsert tm.tools n t1) n t2⟩).map ToolDef.name =
          ((dictInsert (dictInsert tm.tools n t1) n t2).map Prod.fst).map some := by
        simp only [ToolManager.get_tool_definitions, List.map_map]
        apply List.map_congr_left
        intro p hp
        simpa using hwf2 p hp
      rw [hnames]
      exact count_some_keys n _ hnd2 hmem
    · simp [ToolManager.execute_tool, lookup_dictInsert]
  · intro tm t
    constructor
    · rintro ⟨e, he⟩
      unfold ToolManager.register_tool at he
      cases hn : t.definition.name with
      | none => exact Or.inl rfl
      | some m =>
        rw [hn] at he
        by_cases hm : m = ""
        · subst hm; exact Or.inr rfl
        · simp [hm] at he
    · rintro (hn | hn)
      · exact ⟨"Tool must have a 'name' in its definition",
          by simp [ToolManager.register_tool, hn]⟩
      · exact ⟨"Tool must have a 'name' in its definition",
          by simp [ToolManager.register_tool, hn]⟩

/-- Witness for C9 at two concrete tools sharing one name, from an empty
registry. -/
theorem C9_register_replaces_witness :
    ∃ tm1, ToolManager.register_tool ⟨[]⟩ t1W = Except.ok tm1
      ∧ ∃ tm2, ToolManager.register_tool tm1 t2W = Except.ok tm2
        ∧ tm2.tools.lookup "search_course_content" = some t2W
        ∧ (tm2.get_tool_definitions.map ToolDef.name).count (some "search_course_content") = 1
        ∧ (tm2.execute_tool "search_course_content" argsA).1 =
            (t2W.invoke argsA t2W.evidence).1 :=
  C9_register_replaces.1 ⟨[]⟩ t1W t2W "search_course_content" argsA (by simp) (by simp)
    rfl rfl (by decide)

end RagChatbot
